import Mathlib

/-!
Verification of the persistence-ordering engine (`SubjectTopologicalSorter`)
and the Redis query-result cache (`RedisQueryResultCache`) of this repository.

The TypeScript sources are embedded shallowly:

* `EntityMetadata` is the read-only metadata record the sorter consumes.  The
  sorter reads only `metadata.targetName`, `metadata.inheritanceTree` (of which
  it reads only each node's `.name`), and `metadata.relationsWithJoinColumns`
  (of which it reads only `relation.isNullable`,
  `relation.inverseEntityMetadata.targetName`, and the identity comparison
  `relation.inverseEntityMetadata === metadata`).  In the metadata graph there
  is exactly one metadata object per entity and entities have pairwise distinct
  `targetName`s, so object identity of an `inverseEntityMetadata` is in
  bijection with its `targetName`; the embedding therefore stores the inverse
  side of a relation as its `targetName` (which also keeps the type finitary:
  the JS objects may be cyclic).
* `Subject` carries an `id` field modelling JS reference identity (the source
  compares subjects with `===` via `indexOf`); `entity` and `databaseEntity`
  are modelled by the two booleans saying whether they are set, which is all
  the sorter inspects (`!subject.entity && !subject.databaseEntity`).
* Thrown `TypeORMError`s are modelled by `Except String`; the error payload is
  the message string built exactly as in the source.
-/

structure RelationWithJoinColumn where
  isNullable : Bool
  inverseTargetName : String
deriving DecidableEq, Repr

structure EntityMetadata where
  targetName : String
  inheritanceTree : List String
  relationsWithJoinColumns : List RelationWithJoinColumn
deriving DecidableEq, Repr

structure Subject where
  id : Nat
  metadata : EntityMetadata
  hasEntity : Bool
  hasDatabaseEntity : Bool
deriving DecidableEq, Repr

/-- The `direction` argument of `sort`: the string union `"insert" | "delete"`. -/
inductive Direction where
  | insert
  | delete
deriving DecidableEq, Repr

/-- `!subject.entity && !subject.databaseEntity` (the junction-subject test
used on the delete path of `sort`). -/
def isJunction (s : Subject) : Bool :=
  !s.hasEntity && !s.hasDatabaseEntity

/-- `getUniqueMetadatas(subjects)`: push each subject's metadata unless an
identical one (JS: the same object) was already pushed. -/
def getUniqueMetadatas (subjects : List Subject) : List EntityMetadata :=
  subjects.foldl
    (fun metadatas s =>
      if s.metadata ∈ metadatas then metadatas else metadatas ++ [s.metadata])
    []

/-- `getNonNullableDependencies()`: one edge
`[metadata.targetName, relation.inverseEntityMetadata.targetName]` per
non-nullable relation with a join column.  Note: unlike `getDependencies`,
this method has no self-reference check in the source. -/
def getNonNullableDependencies (metadatas : List EntityMetadata) : List (String × String) :=
  metadatas.foldl
    (fun dependencies metadata =>
      metadata.relationsWithJoinColumns.foldl
        (fun dependencies relation =>
          if relation.isNullable then dependencies
          else dependencies ++ [(metadata.targetName, relation.inverseTargetName)])
        dependencies)
    []

/-- `getDependencies()`: one edge per relation with a join column, skipping
self-referenced relations (`relation.inverseEntityMetadata === metadata`,
which by the one-object-per-entity bijection is `targetName` equality). -/
def getDependencies (metadatas : List EntityMetadata) : List (String × String) :=
  metadatas.foldl
    (fun dependencies metadata =>
      metadata.relationsWithJoinColumns.foldl
        (fun dependencies relation =>
          if relation.inverseTargetName = metadata.targetName then dependencies
          else dependencies ++ [(metadata.targetName, relation.inverseTargetName)])
        dependencies)
    []

/-- `JSON.stringify` applied to a plain name string (no escaping is needed for
the entity names appearing in error messages): it wraps the string in
double quotes. -/
def jsonStringify (s : String) : String :=
  "\"" ++ s ++ "\""

/-- `uniqueNodes(edges)` from `toposort`: first-seen order, each edge
contributing its `from` then its `to` endpoint. -/
def uniqueNodes (edges : List (String × String)) : List String :=
  edges.foldl
    (fun res edge =>
      let res := if edge.1 ∈ res then res else res ++ [edge.1]
      if edge.2 ∈ res then res else res ++ [edge.2])
    []

/-- The recursive `visit(node, i, predecessors)` of `toposort`, threading the
`(visited, sorted)` state.  The source fills `sorted` from the back
(`sorted[--cursor] = node`), so the final array equals the reverse order of
placement; the embedding prepends at post-order, which yields the same list.
Children are visited in reverse order of the `outgoing` list
(`do { const child = outgoing[--i][1]; ... } while (i)`).  The recursion
carries fuel; a DFS path can repeat no node (repetition throws the cyclic
error first), so paths are never longer than the node count and the fuel
`nodes.length + 1` supplied by `toposort` is never exhausted. -/
def visitFuel (edges : List (String × String)) (nodes : List String) :
    Nat → String → List String → List Nat × List String →
      Except String (List Nat × List String)
  | 0, _, _, _ => Except.error "FUEL"
  | fuel + 1, node, predecessors, st =>
    if node ∈ predecessors then
      Except.error ("Cyclic dependency: " ++ jsonStringify node)
    else if node ∉ nodes then
      Except.error
        ("Found unknown node. Make sure to provided all involved nodes. Unknown node: "
          ++ jsonStringify node)
    else
      let i := nodes.indexOf node
      if i ∈ st.1 then Except.ok st
      else
        let st := (i :: st.1, st.2)
        let outgoing := edges.filter (fun edge => edge.1 == node)
        let preds := predecessors ++ [node]
        match outgoing.reverse.foldlM
            (fun st edge => visitFuel edges nodes fuel edge.2 preds st) st with
        | Except.error e => Except.error e
        | Except.ok st => Except.ok (st.1, node :: st.2)

/-- `toposort(edges)`: DFS roots are taken in reverse discovery order
(`while (i--) if (!visited.has(i)) visit(nodes[i], i, [])`). -/
def toposort (edges : List (String × String)) : Except String (List String) :=
  let nodes := uniqueNodes edges
  match nodes.enum.reverse.foldlM
      (fun (st : List Nat × List String) p =>
        if p.1 ∈ st.1 then Except.ok st
        else visitFuel edges nodes (nodes.length + 1) p.2 [] st)
      ([], []) with
  | Except.error e => Except.error e
  | Except.ok st => Except.ok st.2

/-- `removeAlreadySorted(subjects)`: for each subject,
`this.subjects.splice(this.subjects.indexOf(subject), 1)`.  When the subject
is present this removes its first occurrence; when `indexOf` returns `-1`
(never the case at the two call sites, which pass freshly filtered
sublists), `splice(-1, 1)` removes the last element. -/
def removeAlreadySorted (working : List Subject) (sortedOnes : List Subject) : List Subject :=
  sortedOnes.foldl
    (fun working s => if s ∈ working then working.erase s else working.dropLast)
    working

/-- Matching predicate of the first (non-nullable) pass:
`subject.metadata.targetName === sortedEntityTarget ||
 subject.metadata.inheritanceTree.some((s) => s.name === sortedEntityTarget)`. -/
def matchesTargetOrTree (sortedEntityTarget : String) (s : Subject) : Bool :=
  s.metadata.targetName == sortedEntityTarget
    || s.metadata.inheritanceTree.any (fun n => n == sortedEntityTarget)

/-- Matching predicate of the second (other-dependencies) pass:
`subject.metadata.targetName === sortedEntityTarget` only. -/
def matchesTargetName (sortedEntityTarget : String) (s : Subject) : Bool :=
  s.metadata.targetName == sortedEntityTarget

/-- One iteration of the `sortedEntityTargets.forEach` loops of `sort`:
filter the matching subjects out of the working list, append them to the
result, and remove them from the working list. -/
def pullStep (pred : String → Subject → Bool)
    (st : List Subject × List Subject) (sortedEntityTarget : String) :
    List Subject × List Subject :=
  let entityTargetSubjects := st.2.filter (pred sortedEntityTarget)
  (st.1 ++ entityTargetSubjects, removeAlreadySorted st.2 entityTargetSubjects)

/-- The body of `sort(direction)` over the constructor-computed `metadatas`
and the current working list `this.subjects`.  Returns the returned ordering
(or the thrown error) together with the final contents of `this.subjects`
(which `sort` mutates in place and does not reset; on a throw the mutations
made so far persist). -/
def sortCore (metadatas : List EntityMetadata) (subjects0 : List Subject)
    (direction : Direction) : Except String (List Subject) × List Subject :=
  if metadatas = [] then (Except.ok subjects0, subjects0)
  else
    let stJ :=
      if direction = Direction.delete then
        let junctionSubjects := subjects0.filter (fun s => isJunction s)
        (junctionSubjects, removeAlreadySorted subjects0 junctionSubjects)
      else ([], subjects0)
    match toposort (getNonNullableDependencies metadatas) with
    | Except.error e => (Except.error e, stJ.2)
    | Except.ok sortedNonNullable =>
      let sortedNonNullable :=
        if direction = Direction.insert then sortedNonNullable.reverse
        else sortedNonNullable
      let st1 := sortedNonNullable.foldl (pullStep matchesTargetOrTree) stJ
      match toposort (getDependencies metadatas) with
      | Except.error e => (Except.error e, st1.2)
      | Except.ok sortedOther =>
        let sortedOther :=
          if direction = Direction.insert then sortedOther.reverse else sortedOther
        let st2 := sortedOther.foldl (pullStep matchesTargetName) st1
        (Except.ok (st2.1 ++ st2.2), st2.2)

/-- `new SubjectTopologicalSorter(subjects).sort(direction)`: the constructor
copies the argument array and computes the unique metadatas of the copy. -/
def sort (subjects : List Subject) (direction : Direction) : Except String (List Subject) :=
  (sortCore (getUniqueMetadatas subjects) subjects direction).1

/-- Claim-variant of `sortCore` following the words of the spec for the
second sorting pass ("Repeat steps 2-4 ..."): the second pass pulls subjects
with the same matching rule as the first pass, i.e. including the
inheritance-tree check.  Used only to compare the spec's described behaviour
against the source, whose second pass matches on `targetName` alone. -/
def sortCoreClaim3 (metadatas : List EntityMetadata) (subjects0 : List Subject)
    (direction : Direction) : Except String (List Subject) × List Subject :=
  if metadatas = [] then (Except.ok subjects0, subjects0)
  else
    let stJ :=
      if direction = Direction.delete then
        let junctionSubjects := subjects0.filter (fun s => isJunction s)
        (junctionSubjects, removeAlreadySorted subjects0 junctionSubjects)
      else ([], subjects0)
    match toposort (getNonNullableDependencies metadatas) with
    | Except.error e => (Except.error e, stJ.2)
    | Except.ok sortedNonNullable =>
      let sortedNonNullable :=
        if direction = Direction.insert then sortedNonNullable.reverse
        else sortedNonNullable
      let st1 := sortedNonNullable.foldl (pullStep matchesTargetOrTree) stJ
      match toposort (getDependencies metadatas) with
      | Except.error e => (Except.error e, st1.2)
      | Except.ok sortedOther =>
        let sortedOther :=
          if direction = Direction.insert then sortedOther.reverse else sortedOther
        let st2 := sortedOther.foldl (pullStep matchesTargetOrTree) st1
        (Except.ok (st2.1 ++ st2.2), st2.2)

/-- The claim-variant `sort` built on `sortCoreClaim3`. -/
def sortClaim3 (subjects : List Subject) (direction : Direction) : Except String (List Subject) :=
  (sortCoreClaim3 (getUniqueMetadatas subjects) subjects direction).1

/-!
Reference/heap model of the sorter's mutable state, for the frame claim.

`this.subjects` is a JS array object; the constructor evaluates
`[...subjects]`, i.e. allocates a fresh array holding a copy of the caller's
elements, and every later in-place `splice` acts on that fresh array.  The
heap maps array references (numbered) to their current contents; allocation
freshness (`fresh` differs from the reference of the caller's array) is a
hypothesis, true of JS allocation.
-/

def Heap : Type := Nat → List Subject

def hUpdate (h : Heap) (r : Nat) (v : List Subject) : Heap :=
  fun q => if q = r then v else h q

/-- The state of a constructed `SubjectTopologicalSorter`: the reference of
its own `this.subjects` array and the constructor-computed `this.metadatas`
(a list of immutable metadata values). -/
structure SorterRef where
  subjectsRef : Nat
  metadatas : List EntityMetadata

/-- `new SubjectTopologicalSorter(heap[caller])`: copy the caller's array
into a freshly allocated one and precompute the unique metadatas. -/
def construct (h : Heap) (caller fresh : Nat) : SorterRef × Heap :=
  (⟨fresh, getUniqueMetadatas (h caller)⟩, hUpdate h fresh (h caller))

/-- One `sorter.sort(direction)` call on the heap: run the sort body on the
current contents of `this.subjects` and write back the mutated working
array (also when the body throws, since the splices already performed
persist). -/
def sortRun (st : SorterRef) (h : Heap) (d : Direction) :
    Except String (List Subject) × Heap :=
  let r := sortCore st.metadatas (h st.subjectsRef) d
  (r.1, hUpdate h st.subjectsRef r.2)

/-- Any number of successive `sort` calls on one sorter instance. -/
def runSorts (st : SorterRef) (h : Heap) (ds : List Direction) : Heap :=
  ds.foldl (fun h d => (sortRun st h d).2) h

/-!
Model of `RedisQueryResultCache.getFromCache` / `storeInCache`.

The backend (a successfully answering redis client) is a key-value store of
strings: `GET k` yields `none` (redis `null`) when the key is absent.
`JSON.parse` is modelled by an explicit partial function `parse` (an
`Except.error` models a thrown `SyntaxError`), and `JSON.stringify(options)`
by an explicit function `serialize`; the claims under verification inspect
only which keys are read and written, never the payload text itself.
Promise settlement is modelled by `PromiseOutcome`: `resolved`/`rejected`
are the settled states observable by an awaiting caller, and `unsettled`
marks a promise that never settles because an exception was thrown outside
the promise machinery (inside the redis client's own callback invocation,
where neither the executor protection of `new Promise` nor a `.then`
rejection applies).

Only the fields of `QueryResultCacheOptions` read by the modelled key logic
are carried (`identifier`, `query`); `result`, `time` and `duration` travel
opaquely inside the serialized text.  The backend-native TTL (`PX`) only
affects later physical expiry and is outside the store model.
-/

structure QueryResultCacheOptions where
  identifier : Option String
  query : Option String
deriving DecidableEq, Repr

def Store : Type := String → Option String

def emptyStore : Store := fun _ => none

/-- `SET k v` on the backend. -/
def setKey (st : Store) (k v : String) : Store :=
  fun q => if q = k then some v else st q

/-- JS truthiness of `options.identifier` / `options.query`: `undefined` and
the empty string are falsy. -/
def jsTruthy : Option String → Bool
  | none => false
  | some s => !(s == "")

/-- `options.identifier || options.query`. -/
def jsOr (a b : Option String) : Option String :=
  if jsTruthy a then a else b

/-- `const key = options.identifier || options.query; if (!key) ...`:
the key actually used, or `none` when the guard `!key` fires. -/
def keyOf (o : QueryResultCacheOptions) : Option String :=
  let key := jsOr o.identifier o.query
  if jsTruthy key then key else none

/-- Claim-variant of the key selection for the cache claims, following the
words "key is `options.identifier` if present, else `options.query`": a
defined-field test instead of the source's truthiness test. -/
def keyOfClaim8 (o : QueryResultCacheOptions) : Option String :=
  match o.identifier with
  | some s => some s
  | none => o.query

inductive PromiseOutcome (α : Type) where
  | resolved : α → PromiseOutcome α
  | rejected : String → PromiseOutcome α
  | unsettled : PromiseOutcome α
deriving DecidableEq, Repr

/-- `getFromCache`, Redis 5+ branch:
`this.client.get(key).then((result) => result ? JSON.parse(result) : undefined)`.
A falsy `result` (`null` for an absent key, or a stored empty string) skips
parsing and resolves to `undefined`; a `JSON.parse` throw happens inside the
`.then` callback, so the returned promise rejects with that error. -/
def getFromCacheRedis5 (parse : String → Except String QueryResultCacheOptions)
    (store : Store) (o : QueryResultCacheOptions) :
    PromiseOutcome (Option QueryResultCacheOptions) :=
  match keyOf o with
  | none => PromiseOutcome.resolved none
  | some k =>
    match store k with
    | none => PromiseOutcome.resolved none
    | some raw =>
      if raw == "" then PromiseOutcome.resolved none
      else
        match parse raw with
        | Except.ok v => PromiseOutcome.resolved (some v)
        | Except.error e => PromiseOutcome.rejected e

/-- `getFromCache`, Redis 3/4 branch:
`new Promise((ok, fail) => this.client.get(key, (err, result) => { if (err)
return fail(err); ok(result ? JSON.parse(result) : undefined) }))`.
The callback runs later, invoked by the redis client, outside the promise
executor; if `JSON.parse` throws there, neither `ok` nor `fail` is called
and the promise never settles (the exception escapes into the client's
callback dispatcher). -/
def getFromCacheRedis34 (parse : String → Except String QueryResultCacheOptions)
    (store : Store) (o : QueryResultCacheOptions) :
    PromiseOutcome (Option QueryResultCacheOptions) :=
  match keyOf o with
  | none => PromiseOutcome.resolved none
  | some k =>
    match store k with
    | none => PromiseOutcome.resolved none
    | some raw =>
      if raw == "" then PromiseOutcome.resolved none
      else
        match parse raw with
        | Except.ok v => PromiseOutcome.resolved (some v)
        | Except.error _ => PromiseOutcome.unsettled

/-- `getFromCache(options)`: dispatch on `isRedis5OrHigher()`. -/
def getFromCache (redis5 : Bool) (parse : String → Except String QueryResultCacheOptions)
    (store : Store) (o : QueryResultCacheOptions) :
    PromiseOutcome (Option QueryResultCacheOptions) :=
  if redis5 then getFromCacheRedis5 parse store o
  else getFromCacheRedis34 parse store o

/-- `storeInCache(options, savedCache)`: `const key = options.identifier ||
options.query; if (!key) return;` then both client generations issue the
same write `SET key JSON.stringify(options)` (with TTL `PX duration`, which
is outside the store model); the resulting backend state is returned. -/
def storeInCache (redis5 : Bool) (serialize : QueryResultCacheOptions → String)
    (store : Store) (o : QueryResultCacheOptions) : Store :=
  match keyOf o with
  | none => store
  | some k =>
    if redis5 then setKey store k (serialize o)
    else setKey store k (serialize o)

/-!  Concrete metadatas, subjects and cache helpers used by the witnesses and
counterexamples. -/

/-- An entity named `a` with a single relation with a join column to the
entity named `b`, nullable according to `nb`. -/
def relMeta (a : String) (nb : Bool) (b : String) : EntityMetadata :=
  ⟨a, [a], [⟨nb, b⟩]⟩

/-- An entity named `b` with no relations. -/
def plainMeta (b : String) : EntityMetadata :=
  ⟨b, [b], []⟩

/-- A derived entity named `der` whose inheritance tree also contains `base`,
itself carrying no relation with a join column. -/
def derivedMeta (der base : String) : EntityMetadata :=
  ⟨der, [der, base], []⟩

/-- A subject with both `entity` and `databaseEntity` set. -/
def mkSubject (id : Nat) (m : EntityMetadata) : Subject :=
  ⟨id, m, true, true⟩

/-- A junction subject: neither `entity` nor `databaseEntity` is set. -/
def mkJunction (id : Nat) (m : EntityMetadata) : Subject :=
  ⟨id, m, false, false⟩

/-- A `JSON.parse` behaviour that fails on every input; in particular it
agrees with `JSON.parse` on every string that is not valid JSON. -/
def parseFail : String → Except String QueryResultCacheOptions :=
  fun _ => Except.error "SyntaxError: Unexpected token"

/-- A `JSON.parse` behaviour returning the fixed record `v` on every input;
used where only the keys read from the backend matter. -/
def parseConst (v : QueryResultCacheOptions) :
    String → Except String QueryResultCacheOptions :=
  fun _ => Except.ok v

/-- A serialization producing an arbitrary fixed non-empty text. -/
def serializeConst : QueryResultCacheOptions → String :=
  fun _ => "SERIALIZED"

/-! ### List lemmas about the in-place removal and the pull loops -/

theorem removeAlreadySorted_cons (ys : List Subject) (x : Subject) :
    ∀ (xs : List Subject), List.Sublist ys xs → (∀ y ∈ ys, y ≠ x) →
      removeAlreadySorted (x :: xs) ys = x :: removeAlreadySorted xs ys := by
  induction ys with
  | nil => intro xs _ _; rfl
  | cons y ys ih =>
    intro xs hsub hne
    have hyx : y ≠ x := hne y (List.mem_cons_self y ys)
    have hymem : y ∈ xs := hsub.subset (List.mem_cons_self y ys)
    have hsub2 : List.Sublist ys (xs.erase y) := by
      have h1 := hsub.erase y
      rwa [List.erase_cons_head] at h1
    have hstep1 : removeAlreadySorted (x :: xs) (y :: ys)
        = removeAlreadySorted ((x :: xs).erase y) ys := by
      simp only [removeAlreadySorted, List.foldl_cons,
        if_pos (List.mem_cons_of_mem x hymem)]
    have hstep2 : removeAlreadySorted xs (y :: ys)
        = removeAlreadySorted (xs.erase y) ys := by
      simp only [removeAlreadySorted, List.foldl_cons, if_pos hymem]
    rw [hstep1, hstep2, List.erase_cons_tail (by simpa using Ne.symm hyx)]
    exact ih (xs.erase y) hsub2 (fun z hz => hne z (List.mem_cons_of_mem y hz))

theorem removeAlreadySorted_filter (p : Subject → Bool) :
    ∀ (w : List Subject),
      removeAlreadySorted w (w.filter p) = w.filter (fun x => !p x) := by
  intro w
  induction w with
  | nil => rfl
  | cons x xs ih =>
    by_cases hp : p x = true
    · rw [List.filter_cons_of_pos hp]
      have hstep : removeAlreadySorted (x :: xs) (x :: xs.filter p)
          = removeAlreadySorted ((x :: xs).erase x) (xs.filter p) := by
        simp only [removeAlreadySorted, List.foldl_cons,
          if_pos (List.mem_cons_self x xs)]
      rw [hstep, List.erase_cons_head, ih, List.filter_cons_of_neg (by simp [hp])]
    · have hp2 : p x = false := by simpa using hp
      rw [List.filter_cons_of_neg (by simp [hp2])]
      rw [removeAlreadySorted_cons (xs.filter p) x xs (List.filter_sublist xs)
        (fun y hy => by
          have hpy := (List.mem_filter.mp hy).2
          intro he
          rw [he, hp2] at hpy
          exact Bool.false_ne_true hpy)]
      rw [ih, List.filter_cons_of_pos (by simp [hp2])]

theorem foldl_pullStep_perm (pred : String → Subject → Bool) :
    ∀ (ts : List String) (st : List Subject × List Subject),
      ((ts.foldl (pullStep pred) st).1 ++ (ts.foldl (pullStep pred) st).2).Perm
        (st.1 ++ st.2) := by
  intro ts
  induction ts with
  | nil => intro st; exact List.Perm.refl _
  | cons t ts ih =>
    intro st
    have h1 := ih (pullStep pred st t)
    have h2 : ((pullStep pred st t).1 ++ (pullStep pred st t).2).Perm (st.1 ++ st.2) := by
      show ((st.1 ++ st.2.filter (pred t))
          ++ removeAlreadySorted st.2 (st.2.filter (pred t))).Perm (st.1 ++ st.2)
      rw [removeAlreadySorted_filter, List.append_assoc]
      exact List.Perm.append_left st.1 (List.filter_append_perm _ st.2)
    simpa [List.foldl_cons] using h1.trans h2

theorem foldl_pullStep_nonjunction (pred : String → Subject → Bool) :
    ∀ (ts : List String) (st : List Subject × List Subject),
      (∀ s ∈ st.2, isJunction s = false) →
      ∃ e, (ts.foldl (pullStep pred) st).1 = st.1 ++ e
        ∧ (∀ s ∈ e, isJunction s = false)
        ∧ ∀ s ∈ (ts.foldl (pullStep pred) st).2, isJunction s = false := by
  intro ts
  induction ts with
  | nil => intro st h; exact ⟨[], by simp, by simp, h⟩
  | cons t ts ih =>
    intro st h
    have hw : ∀ s ∈ (pullStep pred st t).2, isJunction s = false := by
      intro s hs
      have hs2 : s ∈ st.2.filter (fun x => !(pred t) x) := by
        have : (pullStep pred st t).2 = st.2.filter (fun x => !(pred t) x) := by
          show removeAlreadySorted st.2 (st.2.filter (pred t)) = _
          exact removeAlreadySorted_filter (pred t) st.2
        rwa [this] at hs
      exact h s (List.mem_filter.mp hs2).1
    obtain ⟨e, he, hne, hw2⟩ := ih (pullStep pred st t) hw
    refine ⟨st.2.filter (pred t) ++ e, ?_, ?_, ?_⟩
    · rw [List.foldl_cons, he]
      show (st.1 ++ st.2.filter (pred t)) ++ e = _
      rw [List.append_assoc]
    · intro s hs
      rcases List.mem_append.mp hs with hs | hs
      · exact h s (List.mem_filter.mp hs).1
      · exact hne s hs
    · rw [List.foldl_cons]
      exact hw2

theorem foldl_metadatas_extends :
    ∀ (l : List Subject) (acc : List EntityMetadata),
      ∃ e, l.foldl (fun metadatas s =>
          if s.metadata ∈ metadatas then metadatas else metadatas ++ [s.metadata]) acc
        = acc ++ e := by
  intro l
  induction l with
  | nil => intro acc; exact ⟨[], by simp⟩
  | cons s l ih =>
    intro acc
    by_cases hm : s.metadata ∈ acc
    · obtain ⟨e, he⟩ := ih acc
      exact ⟨e, by rw [List.foldl_cons, if_pos hm, he]⟩
    · obtain ⟨e, he⟩ := ih (acc ++ [s.metadata])
      exact ⟨[s.metadata] ++ e, by rw [List.foldl_cons, if_neg hm, he, List.append_assoc]⟩

theorem getUniqueMetadatas_eq_nil {subjects : List Subject}
    (h : getUniqueMetadatas subjects = []) : subjects = [] := by
  cases subjects with
  | nil => rfl
  | cons s l =>
    exfalso
    obtain ⟨e, he⟩ := foldl_metadatas_extends l [s.metadata]
    unfold getUniqueMetadatas at h
    rw [List.foldl_cons, if_neg (List.not_mem_nil s.metadata), List.nil_append, he] at h
    exact List.cons_ne_nil _ _ h

theorem sortCore_perm (metadatas : List EntityMetadata) (subjects0 : List Subject)
    (d : Direction) (res : List Subject)
    (h : (sortCore metadatas subjects0 d).1 = Except.ok res) : res.Perm subjects0 := by
  unfold sortCore at h
  by_cases hm : metadatas = []
  · rw [if_pos hm] at h
    simp only [Except.ok.injEq] at h
    rw [← h]
  · rw [if_neg hm] at h
    dsimp only at h
    rcases htop1 : toposort (getNonNullableDependencies metadatas) with e1 | t1 <;>
      rw [htop1] at h
    · simp at h
    rcases htop2 : toposort (getDependencies metadatas) with e2 | t2 <;>
      rw [htop2] at h
    · simp at h
    simp only [Except.ok.injEq] at h
    rw [← h]
    have hJ : (((if d = Direction.delete then
          (subjects0.filter (fun s => isJunction s),
            removeAlreadySorted subjects0 (subjects0.filter (fun s => isJunction s)))
        else ([], subjects0)) : List Subject × List Subject).1
        ++ ((if d = Direction.delete then
          (subjects0.filter (fun s => isJunction s),
            removeAlreadySorted subjects0 (subjects0.filter (fun s => isJunction s)))
        else ([], subjects0)) : List Subject × List Subject).2).Perm subjects0 := by
      by_cases hd : d = Direction.delete
      · rw [if_pos hd]
        show (subjects0.filter (fun s => isJunction s)
          ++ removeAlreadySorted subjects0 (subjects0.filter (fun s => isJunction s))).Perm
            subjects0
        rw [removeAlreadySorted_filter]
        exact List.filter_append_perm _ subjects0
      · rw [if_neg hd]
        exact List.Perm.refl _
    exact ((foldl_pullStep_perm matchesTargetName _ _).trans
      ((foldl_pullStep_perm matchesTargetOrTree _ _).trans hJ))

/-- **C2.** For every subject list (each subject carrying an entity metadata)
and for both directions, whenever `sort` returns an ordering it is a
permutation of the input: the same multiset of subject identities, with no
subject added, dropped, or duplicated. -/
theorem sort_perm_of_ok (subjects : List Subject) (d : Direction) (res : List Subject)
    (h : sort subjects d = Except.ok res) : res.Perm subjects :=
  sortCore_perm (getUniqueMetadatas subjects) subjects d res h

/-- Witness for `sort_perm_of_ok` at a concrete one-subject input. -/
theorem sort_perm_of_ok_witness :
    sort [mkSubject 1 (plainMeta "A")] Direction.insert
        = Except.ok [mkSubject 1 (plainMeta "A")]
      ∧ List.Perm [mkSubject 1 (plainMeta "A")] [mkSubject 1 (plainMeta "A")] :=
  ⟨rfl, sort_perm_of_ok [mkSubject 1 (plainMeta "A")] Direction.insert
    [mkSubject 1 (plainMeta "A")] rfl⟩

/-- **C6.** For every subject list, `sort(subjects, DELETE)` places every
junction subject (no entity, no databaseEntity) before every non-junction
subject, the junction subjects keeping their original relative order (the
result starts with exactly `subjects.filter isJunction`); and for INSERT the
junction-extraction step is not performed: on the concrete input
`[owned A, junction J]` the insert result leaves the junction subject after
the owned one, where the delete-style extraction would have moved it first. -/
theorem junction_first_on_delete :
    (∀ (subjects res : List Subject), sort subjects Direction.delete = Except.ok res →
      ∃ t, res = subjects.filter (fun s => isJunction s) ++ t
        ∧ ∀ s ∈ t, isJunction s = false)
    ∧ sort [mkSubject 1 (plainMeta "A"), mkJunction 2 (plainMeta "J")] Direction.insert
        = Except.ok [mkSubject 1 (plainMeta "A"), mkJunction 2 (plainMeta "J")] := by
  constructor
  · intro subjects res h
    unfold sort sortCore at h
    by_cases hm : getUniqueMetadatas subjects = []
    · rw [if_pos hm] at h
      simp only [Except.ok.injEq] at h
      have hnil := getUniqueMetadatas_eq_nil hm
      subst hnil
      exact ⟨[], by simp [← h], by simp⟩
    · rw [if_neg hm] at h
      dsimp only at h
      rw [if_pos rfl] at h
      rcases htop1 : toposort (getNonNullableDependencies (getUniqueMetadatas subjects))
        with e1 | t1 <;> rw [htop1] at h
      · simp at h
      rcases htop2 : toposort (getDependencies (getUniqueMetadatas subjects))
        with e2 | t2 <;> rw [htop2] at h
      · simp at h
      simp only [eq_false (by decide : ¬(Direction.delete = Direction.insert)),
        ite_false, Except.ok.injEq] at h
      have hW : ∀ s ∈ removeAlreadySorted subjects
          (subjects.filter (fun s => isJunction s)), isJunction s = false := by
        rw [removeAlreadySorted_filter]
        intro s hs
        simpa using (List.mem_filter.mp hs).2
      obtain ⟨e3, he1, hne1, hw1⟩ := foldl_pullStep_nonjunction matchesTargetOrTree t1
        (subjects.filter (fun s => isJunction s),
          removeAlreadySorted subjects (subjects.filter (fun s => isJunction s))) hW
      obtain ⟨e4, he2, hne2, hw2⟩ := foldl_pullStep_nonjunction matchesTargetName t2
        (List.foldl (pullStep matchesTargetOrTree)
          (subjects.filter (fun s => isJunction s),
            removeAlreadySorted subjects (subjects.filter (fun s => isJunction s))) t1) hw1
      refine ⟨e3 ++ e4 ++ (List.foldl (pullStep matchesTargetName)
        (List.foldl (pullStep matchesTargetOrTree)
          (subjects.filter (fun s => isJunction s),
            removeAlreadySorted subjects (subjects.filter (fun s => isJunction s))) t1)
          t2).2, ?_, ?_⟩
      · rw [← h, he2, he1]
        simp [List.append_assoc]
      · intro s hs
        rcases List.mem_append.mp hs with hs | hs
        · rcases List.mem_append.mp hs with hs | hs
          · exact hne1 s hs
          · exact hne2 s hs
        · exact hw2 s hs
  · rfl

/-- Witness for `junction_first_on_delete` at a concrete input: an owned
subject followed by a junction subject, sorted for deletion. -/
theorem junction_first_on_delete_witness :
    ∃ t, [mkJunction 2 (plainMeta "J"), mkSubject 1 (plainMeta "A")]
        = [mkSubject 1 (plainMeta "A"), mkJunction 2 (plainMeta "J")].filter
            (fun s => isJunction s) ++ t
      ∧ ∀ s ∈ t, isJunction s = false :=
  junction_first_on_delete.1
    [mkSubject 1 (plainMeta "A"), mkJunction 2 (plainMeta "J")]
    [mkJunction 2 (plainMeta "J"), mkSubject 1 (plainMeta "A")] rfl

theorem runSorts_frame (st : SorterRef) (caller : Nat) (hne : st.subjectsRef ≠ caller) :
    ∀ (ds : List Direction) (h : Heap), runSorts st h ds caller = h caller := by
  intro ds
  induction ds with
  | nil => intro h; rfl
  | cons d ds ih =>
    intro h
    have hstep : (sortRun st h d).2 caller = h caller := by
      show hUpdate h st.subjectsRef _ caller = h caller
      unfold hUpdate
      rw [if_neg (fun he => hne he.symm)]
    calc runSorts st h (d :: ds) caller
        = runSorts st ((sortRun st h d).2) ds caller := rfl
      _ = (sortRun st h d).2 caller := ih _
      _ = h caller := hstep

/-- **C9.** `sort` never mutates the caller's subject array: the constructor
copies the caller's array into a freshly allocated one (`fresh` is a fresh
reference, hence distinct from the caller's), and all in-place removal
happens on that copy, so after any number of `sort` calls on the
constructed sorter the caller's array still holds the same elements in the
same positions. -/
theorem sort_does_not_mutate_caller (h : Heap) (caller fresh : Nat)
    (hfresh : fresh ≠ caller) (ds : List Direction) :
    runSorts (construct h caller fresh).1 ((construct h caller fresh).2) ds caller
      = h caller := by
  have h1 : (construct h caller fresh).1.subjectsRef = fresh := rfl
  have h2 := runSorts_frame (construct h caller fresh).1 caller
    (by rw [h1]; exact hfresh) ds ((construct h caller fresh).2)
  rw [h2]
  show hUpdate h fresh (h caller) caller = h caller
  unfold hUpdate
  rw [if_neg (fun he => hfresh he.symm)]

/-- Witness for `sort_does_not_mutate_caller`: one insert call and one
delete call on a sorter built over a one-subject array. -/
theorem sort_does_not_mutate_caller_witness :
    (1 : Nat) ≠ 0
      ∧ runSorts (construct (fun _ => [mkSubject 1 (plainMeta "A")]) 0 1).1
          ((construct (fun _ => [mkSubject 1 (plainMeta "A")]) 0 1).2)
          [Direction.insert, Direction.delete] 0
        = (fun _ : Nat => [mkSubject 1 (plainMeta "A")]) 0 :=
  ⟨by decide, sort_does_not_mutate_caller _ 0 1 (by decide) _⟩

/-- **C10.** An options record whose `identifier` is the empty string behaves
exactly as if `identifier` were absent: the key falls back to
`options.query`; the backend slot of the empty-string key is never written,
so nothing can be stored under (or, by the second conjunct, looked up by)
the empty-string identifier; and when `query` is also falsy the calls are
silent no-ops.  The presence test (`options.identifier || options.query`,
guarded by `if (!key)`) is a truthiness test, not a defined-field test. -/
theorem cache_empty_identifier_truthiness :
    (∀ q : Option String, keyOf ⟨some "", q⟩ = keyOf ⟨none, q⟩)
    ∧ (∀ (redis5 : Bool) (parse : String → Except String QueryResultCacheOptions)
        (store : Store) (q : Option String),
        getFromCache redis5 parse store ⟨some "", q⟩
          = getFromCache redis5 parse store ⟨none, q⟩)
    ∧ (∀ (redis5 : Bool) (serialize : QueryResultCacheOptions → String)
        (store : Store) (q : Option String),
        storeInCache redis5 serialize store ⟨some "", q⟩ "" = store "")
    ∧ (∀ (redis5 : Bool) (parse : String → Except String QueryResultCacheOptions)
        (serialize : QueryResultCacheOptions → String) (store : Store),
        getFromCache redis5 parse store ⟨some "", none⟩ = PromiseOutcome.resolved none
        ∧ getFromCache redis5 parse store ⟨some "", some ""⟩ = PromiseOutcome.resolved none
        ∧ storeInCache redis5 serialize store ⟨some "", none⟩ = store
        ∧ storeInCache redis5 serialize store ⟨some "", some ""⟩ = store) := by
  refine ⟨fun q => rfl, fun redis5 parse store q => rfl, ?_, ?_⟩
  · intro redis5 serialize store q
    rcases q with _ | s
    · rfl
    · by_cases hs : s = ""
      · subst hs; rfl
      · show (match keyOf ⟨some "", some s⟩ with
            | none => store
            | some k =>
              if redis5 then setKey store k (serialize ⟨some "", some s⟩)
              else setKey store k (serialize ⟨some "", some s⟩)) "" = store ""
        have hkey : keyOf ⟨some "", some s⟩ = some s := by
          simp [keyOf, jsOr, jsTruthy, hs]
        rw [hkey]
        have hne : ("" : String) ≠ s := Ne.symm hs
        by_cases hr : redis5 = true <;>
          simp [hr, setKey, if_neg hne]
  · intro redis5 parse serialize store
    refine ⟨?_, ?_, ?_, ?_⟩ <;> cases redis5 <;> rfl

/-- **C8 counterexample.** Two concrete divergences from the claim.
First, an identifier that is present but empty (`identifier: ""`) is not
selected as the key: the claim-variant key (`keyOfClaim8`, a defined-field
test per the claim's "identifier when present") picks `""`, but the source
picks the query `"Q"`, and consequently an entry sitting under the backend
key `""` is not found (`resolved none`) even though the claim's key
selection would reach it.  Second, "an entry stored under identifier `id1`
is never returned by a lookup keyed only by query text" fails when the
query text is itself `"id1"`: identifiers and query texts share one backend
keyspace, so the lookup returns exactly the entry stored under the
identifier. -/
theorem cache_key_selection_counterexample :
    keyOfClaim8 ⟨some "", some "Q"⟩ = some ""
    ∧ keyOf ⟨some "", some "Q"⟩ = some "Q"
    ∧ getFromCache true (parseConst ⟨none, none⟩) (setKey emptyStore "" "RAW")
        ⟨some "", some "Q"⟩ = PromiseOutcome.resolved none
    ∧ getFromCache true (parseConst ⟨none, none⟩)
        (storeInCache true serializeConst emptyStore ⟨some "id1", some "Q2"⟩)
        ⟨none, some "id1"⟩ = PromiseOutcome.resolved (some ⟨none, none⟩) :=
  ⟨rfl, rfl, rfl, rfl⟩

/-- **C8 (amended).** The cache key is `options.identifier` when it is
truthy (present and non-empty), otherwise `options.query` subject to the
same truthiness guard; with no truthy key material, `getFromCache` resolves
to `undefined` and `storeInCache` leaves the backend untouched, neither
raising an error; and an entry stored under identifier `"id1"` is not
returned by a lookup keyed only by a query text different from `"id1"`. -/
theorem cache_key_selection (parse : String → Except String QueryResultCacheOptions)
    (serialize : QueryResultCacheOptions → String) :
    (∀ (o : QueryResultCacheOptions) (s : String),
        o.identifier = some s → s ≠ "" → keyOf o = some s)
    ∧ (∀ o : QueryResultCacheOptions,
        o.identifier = none ∨ o.identifier = some "" →
        keyOf o = if jsTruthy o.query then o.query else none)
    ∧ (∀ (redis5 : Bool) (store : Store) (o : QueryResultCacheOptions),
        keyOf o = none →
          getFromCache redis5 parse store o = PromiseOutcome.resolved none
          ∧ storeInCache redis5 serialize store o = store)
    ∧ keyOf ⟨none, none⟩ = none
    ∧ (∀ (redis5 : Bool) (q : String), q ≠ "id1" →
        getFromCache redis5 parse
          (storeInCache redis5 serialize emptyStore ⟨some "id1", some q⟩)
          ⟨none, some q⟩ = PromiseOutcome.resolved none) := by
  refine ⟨?_, ?_, ?_, rfl, ?_⟩
  · intro o s hid hs
    simp [keyOf, jsOr, jsTruthy, hid, hs]
  · intro o h
    rcases h with h | h <;> simp [keyOf, jsOr, jsTruthy, h]
  · intro redis5 store o h
    constructor
    · cases redis5 <;>
        simp [getFromCache, getFromCacheRedis5, getFromCacheRedis34, h]
    · simp [storeInCache, h]
  · intro redis5 q hq
    by_cases hq0 : q = ""
    · subst hq0; cases redis5 <;> rfl
    · have hkq : keyOf ⟨none, some q⟩ = some q := by
        simp [keyOf, jsOr, jsTruthy, hq0]
      have hkid : keyOf ⟨some "id1", some q⟩ = some "id1" := by
        simp [keyOf, jsOr, jsTruthy]
      have hmiss : storeInCache redis5 serialize emptyStore ⟨some "id1", some q⟩ q = none := by
        rw [storeInCache, hkid]
        cases redis5 <;> simp [setKey, emptyStore, if_neg hq]
      cases redis5 <;>
        simp [getFromCache, getFromCacheRedis5, getFromCacheRedis34, hkq, hmiss]

/-- Witness for `cache_key_selection` at concrete inputs. -/
theorem cache_key_selection_witness :
    keyOf ⟨some "id7", some "Q"⟩ = some "id7"
    ∧ getFromCache true parseFail emptyStore ⟨none, none⟩ = PromiseOutcome.resolved none
    ∧ getFromCache true parseFail
        (storeInCache true serializeConst emptyStore ⟨some "id1", some "Q2"⟩)
        ⟨none, some "Q2"⟩ = PromiseOutcome.resolved none :=
  ⟨(cache_key_selection parseFail serializeConst).1 ⟨some "id7", some "Q"⟩ "id7" rfl
      (by decide),
    ((cache_key_selection parseFail serializeConst).2.2.1 true emptyStore
      ⟨none, none⟩ rfl).1,
    (cache_key_selection parseFail serializeConst).2.2.2.2 true "Q2" (by decide)⟩

/-- **C7 counterexample.** The stored text `""` is not parsable JSON
(`JSON.parse("")` throws, as `parseFail` models), yet `getFromCache`
resolves to `undefined` — a silent miss, not a surfaced error — in both the
promise-based and the callback-based code paths, because both guard with
the truthiness of the fetched value (`result ? JSON.parse(result) :
undefined`) and the empty string is falsy, so the parser is never invoked. -/
theorem cache_unparsable_counterexample :
    parseFail "" = Except.error "SyntaxError: Unexpected token"
    ∧ getFromCache true parseFail (setKey emptyStore "Q" "") ⟨none, some "Q"⟩
        = PromiseOutcome.resolved none
    ∧ getFromCache false parseFail (setKey emptyStore "Q" "") ⟨none, some "Q"⟩
        = PromiseOutcome.resolved none :=
  ⟨rfl, rfl, rfl⟩

/-- **C7 (amended).** For every stored cache value that is non-empty and not
parsable JSON, `getFromCache` does not resolve to the absent result in
either backend path, but only the Redis 5+ promise path surfaces the parse
error to the caller (the promise returned by `.then` rejects); in the
Redis 3/4 callback path the `JSON.parse` exception is thrown inside the
client's callback, outside the promise executor, so the promise never
settles and no error reaches the awaiting caller. -/
theorem cache_unparsable_outcomes (parse : String → Except String QueryResultCacheOptions)
    (store : Store) (o : QueryResultCacheOptions) (k raw e : String)
    (hk : keyOf o = some k) (hs : store k = some raw) (hraw : raw ≠ "")
    (hp : parse raw = Except.error e) :
    getFromCache true parse store o = PromiseOutcome.rejected e
    ∧ getFromCache false parse store o = PromiseOutcome.unsettled := by
  have hb : (raw == "") = false := by simpa using hraw
  constructor
  · show getFromCacheRedis5 parse store o = _
    simp [getFromCacheRedis5, hk, hs, hb, hp]
  · show getFromCacheRedis34 parse store o = _
    simp [getFromCacheRedis34, hk, hs, hb, hp]

/-- Witness for `cache_unparsable_outcomes` at a concrete store holding the
non-JSON text `"NOTJSON"` under the key `"Q"`. -/
theorem cache_unparsable_outcomes_witness :
    keyOf ⟨none, some "Q"⟩ = some "Q"
    ∧ setKey emptyStore "Q" "NOTJSON" "Q" = some "NOTJSON"
    ∧ ("NOTJSON" : String) ≠ ""
    ∧ parseFail "NOTJSON" = Except.error "SyntaxError: Unexpected token"
    ∧ getFromCache true parseFail (setKey emptyStore "Q" "NOTJSON") ⟨none, some "Q"⟩
        = PromiseOutcome.rejected "SyntaxError: Unexpected token"
    ∧ getFromCache false parseFail (setKey emptyStore "Q" "NOTJSON") ⟨none, some "Q"⟩
        = PromiseOutcome.unsettled :=
  ⟨rfl, rfl, by decide, rfl,
    (cache_unparsable_outcomes parseFail (setKey emptyStore "Q" "NOTJSON")
      ⟨none, some "Q"⟩ "Q" "NOTJSON" "SyntaxError: Unexpected token"
      rfl rfl (by decide) rfl).1,
    (cache_unparsable_outcomes parseFail (setKey emptyStore "Q" "NOTJSON")
      ⟨none, some "Q"⟩ "Q" "NOTJSON" "SyntaxError: Unexpected token"
      rfl rfl (by decide) rfl).2⟩

/-! ### Evaluation helpers for the Except monad -/

theorem except_bind_ok {ε α β : Type} (a : α) (f : α → Except ε β) :
    (Except.ok a >>= f : Except ε β) = f a := rfl

theorem except_bind_error {ε α β : Type} (e : ε) (f : α → Except ε β) :
    (Except.error e >>= f : Except ε β) = Except.error e := rfl

theorem except_pure {ε α : Type} (a : α) : (pure a : Except ε α) = Except.ok a := rfl

/-- **C1 counterexample.** For the entity `C` whose single relation with a
join column is non-nullable and self-referencing, `sort([subjC], INSERT)`
does not return `[subjC]`: it throws the cyclic-dependency error, because
`getNonNullableDependencies` (unlike `getDependencies`) has no
self-reference check and contributes the edge `(C, C)` to the non-nullable
dependency graph. -/
theorem selfref_exclusion_counterexample :
    sort [mkSubject 1 (relMeta "C" false "C")] Direction.insert
        = Except.error ("Cyclic dependency: " ++ jsonStringify "C")
    ∧ sort [mkSubject 1 (relMeta "C" false "C")] Direction.insert
        ≠ Except.ok [mkSubject 1 (relMeta "C" false "C")]
    ∧ getNonNullableDependencies [relMeta "C" false "C"] = [("C", "C")] := by
  have h1 : sort [mkSubject 1 (relMeta "C" false "C")] Direction.insert
      = Except.error ("Cyclic dependency: " ++ jsonStringify "C") := rfl
  refine ⟨h1, ?_, rfl⟩
  rw [h1]
  intro h
  exact Except.noConfusion h

/-- **C1 (amended).** For every entity name `c`, a subject over an entity
with a single non-nullable self-referencing relation with a join column
makes `sort` throw the cyclic-dependency error naming `c`: the
self-reference does contribute the edge `(c, c)` to the non-nullable
dependency graph (self-references are excluded only from the full
dependency graph built by `getDependencies` for the second pass). -/
theorem selfref_nonnullable_cycle (c : String) (id : Nat) :
    sort [mkSubject id (relMeta c false c)] Direction.insert
        = Except.error ("Cyclic dependency: " ++ jsonStringify c)
    ∧ getNonNullableDependencies [relMeta c false c] = [(c, c)]
    ∧ getDependencies [relMeta c false c] = [] := by
  refine ⟨?_, rfl, by simp [getDependencies, relMeta]⟩
  simp [sort, sortCore, getUniqueMetadatas, getNonNullableDependencies, relMeta, mkSubject,
    toposort, uniqueNodes, visitFuel, jsonStringify]

/-- **C3 counterexample.** Subjects `[Derived, Dep, Base]` where
`Derived`'s inheritance tree contains `Base`, `Base` has only a nullable
relation with a join column to `Dep`, and `Derived` itself has none.  The
source orders `[Dep, Base, Derived]`: in the second (full-graph) pass the
`Derived` subject is not pulled at `Base`'s position, because that pass
matches on `targetName` only, so `Derived` falls through to the final
remainder step.  The claim-variant `sortClaim3`, which applies the
first pass's inheritance-tree matching in the second pass as the claim
describes, orders `[Dep, Derived, Base]` instead. -/
theorem secondpass_inheritance_counterexample :
    sort [mkSubject 1 (derivedMeta "Derived" "Base"), mkSubject 2 (plainMeta "Dep"),
        mkSubject 3 (relMeta "Base" true "Dep")] Direction.insert
      = Except.ok [mkSubject 2 (plainMeta "Dep"), mkSubject 3 (relMeta "Base" true "Dep"),
          mkSubject 1 (derivedMeta "Derived" "Base")]
    ∧ sortClaim3 [mkSubject 1 (derivedMeta "Derived" "Base"), mkSubject 2 (plainMeta "Dep"),
        mkSubject 3 (relMeta "Base" true "Dep")] Direction.insert
      = Except.ok [mkSubject 2 (plainMeta "Dep"), mkSubject 1 (derivedMeta "Derived" "Base"),
          mkSubject 3 (relMeta "Base" true "Dep")] :=
  ⟨rfl, rfl⟩

/-- **C3 (amended).** In the second sorting pass a remaining subject is
pulled out at a sorted target name's position only when its metadata's
`targetName` equals that name; the inheritance-tree matching is applied
only in the first (non-nullable) pass.  Hence for any three distinct entity
names, a `Derived`-typed subject whose base entity has only a nullable
join-column relation to `Dep` is not ordered at `Base`'s position: it is
appended by the final remainder step, after both `Dep` and `Base`. -/
theorem secondpass_matches_targetname_only (der base dep : String)
    (h1 : der ≠ base) (h2 : der ≠ dep) (h3 : base ≠ dep) :
    sort [mkSubject 1 (derivedMeta der base), mkSubject 2 (plainMeta dep),
        mkSubject 3 (relMeta base true dep)] Direction.insert
      = Except.ok [mkSubject 2 (plainMeta dep), mkSubject 3 (relMeta base true dep),
          mkSubject 1 (derivedMeta der base)] := by
  have hb1 : (der == base) = false := by simpa using h1
  have hb1r : (base == der) = false := by simpa using Ne.symm h1
  have hb2 : (der == dep) = false := by simpa using h2
  have hb2r : (dep == der) = false := by simpa using Ne.symm h2
  have hb3 : (base == dep) = false := by simpa using h3
  have hb3r : (dep == base) = false := by simpa using Ne.symm h3
  simp [hb1, hb1r, hb2, hb2r, hb3, hb3r, sort, sortCore, getUniqueMetadatas,
    getNonNullableDependencies, getDependencies, relMeta, plainMeta, derivedMeta,
    mkSubject, toposort, uniqueNodes, visitFuel, jsonStringify,
    pullStep, removeAlreadySorted, matchesTargetOrTree, matchesTargetName,
    List.indexOf_cons, List.findIdx_cons, List.enum_cons,
    except_bind_ok, except_bind_error, except_pure,
    h1, h2, h3, Ne.symm h1, Ne.symm h2, Ne.symm h3]

/-- Witness for `secondpass_matches_targetname_only` at the names
`Derived2`, `Base2`, `Dep2`. -/
theorem secondpass_matches_targetname_only_witness :
    sort [mkSubject 1 (derivedMeta "Derived2" "Base2"), mkSubject 2 (plainMeta "Dep2"),
        mkSubject 3 (relMeta "Base2" true "Dep2")] Direction.insert
      = Except.ok [mkSubject 2 (plainMeta "Dep2"), mkSubject 3 (relMeta "Base2" true "Dep2"),
          mkSubject 1 (derivedMeta "Derived2" "Base2")] :=
  secondpass_matches_targetname_only "Derived2" "Base2" "Dep2"
    (by decide) (by decide) (by decide)

/-- **C4.** For entities `a` and `b` with distinct names, where `a` has a
non-nullable relation with a join column to `b` and `b` has no relation at
all, `sort([subjectA, subjectB], INSERT)` returns `subjectB` strictly
before `subjectA`. -/
theorem nonnullable_precedence (a b : String) (h : a ≠ b) :
    sort [mkSubject 1 (relMeta a false b), mkSubject 2 (plainMeta b)] Direction.insert
      = Except.ok [mkSubject 2 (plainMeta b), mkSubject 1 (relMeta a false b)] := by
  have hb : (a == b) = false := by simpa using h
  have hb2 : (b == a) = false := by simpa using Ne.symm h
  simp [hb, hb2, sort, sortCore, getUniqueMetadatas, getNonNullableDependencies,
    getDependencies, relMeta, plainMeta, mkSubject, toposort, uniqueNodes, visitFuel,
    jsonStringify, pullStep, removeAlreadySorted, matchesTargetOrTree, matchesTargetName,
    List.indexOf_cons, List.findIdx_cons, List.enum_cons,
    except_bind_ok, except_bind_error, except_pure, h, Ne.symm h]

/-- Witness for `nonnullable_precedence` at the names `A`, `B`. -/
theorem nonnullable_precedence_witness :
    sort [mkSubject 1 (relMeta "A" false "B"), mkSubject 2 (plainMeta "B")] Direction.insert
      = Except.ok [mkSubject 2 (plainMeta "B"), mkSubject 1 (relMeta "A" false "B")] :=
  nonnullable_precedence "A" "B" (by decide)

/-- **C5.** For entities `a` and `b` with distinct names that each carry a
non-nullable relation with a join column to the other, `sort` throws the
cyclic-dependency error for both directions, synchronously (the error is
the return of the `sort` call itself), and the error message identifies one
node of the cycle (here `b`, the first node on which the DFS closes the
loop). -/
theorem cycle_detection (a b : String) (h : a ≠ b) (d : Direction) :
    sort [mkSubject 1 (relMeta a false b), mkSubject 2 (relMeta b false a)] d
      = Except.error ("Cyclic dependency: " ++ jsonStringify b) := by
  have hb : (a == b) = false := by simpa using h
  have hb2 : (b == a) = false := by simpa using Ne.symm h
  cases d <;>
    simp [hb, hb2, sort, sortCore, getUniqueMetadatas, getNonNullableDependencies,
      getDependencies, relMeta, mkSubject, toposort, uniqueNodes, visitFuel, jsonStringify,
      pullStep, removeAlreadySorted, matchesTargetOrTree, matchesTargetName, isJunction,
      List.indexOf_cons, List.findIdx_cons, List.enum_cons,
      except_bind_ok, except_bind_error, except_pure, h, Ne.symm h]

/-- Witness for `cycle_detection` at the names `A`, `B`, both directions. -/
theorem cycle_detection_witness :
    sort [mkSubject 1 (relMeta "A" false "B"), mkSubject 2 (relMeta "B" false "A")]
        Direction.insert
      = Except.error ("Cyclic dependency: " ++ jsonStringify "B")
    ∧ sort [mkSubject 1 (relMeta "A" false "B"), mkSubject 2 (relMeta "B" false "A")]
        Direction.delete
      = Except.error ("Cyclic dependency: " ++ jsonStringify "B") :=
  ⟨cycle_detection "A" "B" (by decide) Direction.insert,
    cycle_detection "A" "B" (by decide) Direction.delete⟩
